import Mathlib

/-!
Verification of the parsing-and-simplification pipeline of the `ca`
calculator (Rust sources: `parser.rs`, `evaluator.rs`, `context.rs`,
`main.rs`).  Expressions are trees over exact rationals (`BigRational`
is modelled by `ℚ`: both are arbitrary-precision fractions kept in
lowest terms with a positive denominator).  Functions that can panic in
Rust (constructing a rational with a zero denominator) are modelled in
the `Option` monad, `none` standing for a panic.
-/

namespace Ca

/-- Op from parser.rs: the closed set of binary operators. -/
inductive Op where
  | Add | Subtract | Multiply | Adjacent | Divide | Modulus | Exponent | Equals
deriving DecidableEq

/-- Expr from parser.rs: the abstract syntax tree.  `Number` carries an
exact rational, `Tuple` an ordered list of elements. -/
inductive Expr where
  | Number (q : ℚ)
  | Name (s : String)
  | Boolean (b : Bool)
  | Tuple (es : List Expr)
  | Assign (lhs rhs : Expr)
  | BinaryExpr (lhs : Expr) (op : Op) (rhs : Expr)

mutual
/-- Structural equality on expressions, mirroring the derived
`PartialEq` on the Rust `Expr` (rational components compare exactly). -/
def exprEq : Expr → Expr → Bool
  | .Number a, .Number b => a == b
  | .Name a, .Name b => a == b
  | .Boolean a, .Boolean b => a == b
  | .Tuple as, .Tuple bs => exprEqList as bs
  | .Assign a b, .Assign c d => exprEq a c && exprEq b d
  | .BinaryExpr a o b, .BinaryExpr c p d => exprEq a c && o == p && exprEq b d
  | _, _ => false

/-- Pointwise structural equality on expression lists. -/
def exprEqList : List Expr → List Expr → Bool
  | [], [] => true
  | a :: as, b :: bs => exprEq a b && exprEqList as bs
  | _, _ => false
end

mutual
/-- Whether the operator `o` occurs anywhere in an expression tree. -/
def containsOp (o : Op) : Expr → Bool
  | .BinaryExpr l op r => op == o || containsOp o l || containsOp o r
  | .Assign a b => containsOp o a || containsOp o b
  | .Tuple es => containsOpList o es
  | _ => false

/-- Whether the operator `o` occurs in any expression of a list. -/
def containsOpList (o : Op) : List Expr → Bool
  | [] => false
  | e :: es => containsOp o e || containsOpList o es
end

/-- Whether an expression is a BinaryExpr whose root operator is `o`. -/
def isOpRoot (o : Op) : Expr → Bool
  | .BinaryExpr _ p _ => p == o
  | _ => false

mutual
/-- Canonical right-nested shape: no Add node has an Add left child and
no Multiply node has a Multiply left child, anywhere in the tree. -/
def rightNested : Expr → Bool
  | .BinaryExpr l op r =>
      (!((op == .Add || op == .Multiply) && isOpRoot op l))
        && rightNested l && rightNested r
  | .Assign a b => rightNested a && rightNested b
  | .Tuple es => rightNestedList es
  | _ => true

/-- `rightNested` on every expression of a list. -/
def rightNestedList : List Expr → Bool
  | [] => true
  | e :: es => rightNested e && rightNestedList es
end

mutual
/-- Number of nodes of an expression tree (at least 1 for any
expression).  Used as the fuel bound of the simplifier. -/
def exprSize : Expr → ℕ
  | .Number _ => 1
  | .Name _ => 1
  | .Boolean _ => 1
  | .Tuple es => 1 + exprSizeList es
  | .Assign a b => 1 + exprSize a + exprSize b
  | .BinaryExpr l _ r => 1 + exprSize l + exprSize r

/-- Total node count of a list of expressions. -/
def exprSizeList : List Expr → ℕ
  | [] => 0
  | e :: es => exprSize e + exprSizeList es
end

/-- Whether an expression contains no Tuple and no Assign node (the
two constructors whose children `normalize` does not visit). -/
def taFree : Expr → Bool
  | .Tuple _ => false
  | .Assign _ _ => false
  | .BinaryExpr l _ r => taFree l && taFree r
  | _ => true

/-- Token from tokenizer.rs.  Number literals carry the exact rational
the tokenizer produced for them. -/
inductive Token where
  | Number (q : ℚ)
  | Name (s : String)
  | LeftParen | RightParen
  | Add | Subtract | Multiply | Divide | Modulus | Exponent | Equals
  | Comma | Assign
deriving DecidableEq

/-- get_precedence from parser.rs: (left, right) binding powers. -/
def get_precedence : Token → Option (ℕ × ℕ)
  | .Equals => some (3, 3)
  | .Add => some (6, 6)
  | .Subtract => some (6, 6)
  | .Multiply => some (7, 7)
  | .Divide => some (7, 7)
  | .Modulus => some (7, 7)
  | .Exponent => some (10, 9)
  | _ => none

/-- UNARY_PRIORITY from parser.rs. -/
def UNARY_PRIORITY : ℕ := 8

mutual
/-- parse_expr from parser.rs: parse a prefix expression, then extend it
with infix operators and implicit multiplication while the precedence
allows.  The token iterator is the remaining token list; `fuel` bounds
the recursion depth (the Rust recursion terminates because every few
nested calls consume a token; `parse` below passes ample fuel). -/
def parse_expr (fuel : ℕ) (it : List Token) (precedence : ℕ) :
    Except String (Expr × List Token) :=
  match fuel with
  | 0 => .error "fuel exhausted"
  | fuel + 1 => do
    let (e, it2) ← parse_primary fuel it
    parse_expr_loop fuel e it2 precedence

/-- The while loop of parse_expr: peek at the next token and either
stop, build an Adjacent node (implicit multiplication, parsed at
precedence 0), or dispatch to an infix operator. -/
def parse_expr_loop (fuel : ℕ) (expr : Expr) (it : List Token)
    (precedence : ℕ) : Except String (Expr × List Token) :=
  match fuel with
  | 0 => .error "fuel exhausted"
  | fuel + 1 =>
    match it with
    | [] => .ok (expr, it)
    | next :: _ =>
      match next with
      | .RightParen => .ok (expr, it)
      | .Name _ | .Number _ | .LeftParen => do
        let (rhs, it2) ← parse_expr fuel it 0
        parse_expr_loop fuel (.BinaryExpr expr .Adjacent rhs) it2 precedence
      | _ =>
        match get_precedence next with
        | none => .ok (expr, it)
        | some (left_prec, right_prec) =>
          if precedence ≥ left_prec then .ok (expr, it)
          else do
            let (e2, it2) ← parse_infix_op fuel expr it right_prec
            parse_expr_loop fuel e2 it2 precedence

/-- parse_prefix from parser.rs (renamed here): number and name leaves,
unary minus desugared to `0 − e`, and parenthesised groups. -/
def parse_primary (fuel : ℕ) (it : List Token) :
    Except String (Expr × List Token) :=
  match fuel with
  | 0 => .error "fuel exhausted"
  | fuel + 1 =>
    match it with
    | [] => .error "Unterminated expression"
    | t :: rest =>
      match t with
      | .Number n => .ok (.Number n, rest)
      | .Name n => .ok (.Name n, rest)
      | .Subtract => do
        let (e, it2) ← parse_expr fuel rest UNARY_PRIORITY
        pure (.BinaryExpr (.Number 0) .Subtract e, it2)
      | .LeftParen =>
        match rest with
        | .RightParen :: rest2 => .ok (.Tuple [], rest2)
        | _ => parse_group fuel rest []
      | _ => .error "Unexpected token"

/-- The group loop inside parse_prefix: comma-separated expressions up
to a closing parenthesis; one element unwraps, otherwise a Tuple. -/
def parse_group (fuel : ℕ) (it : List Token) (exprs : List Expr) :
    Except String (Expr × List Token) :=
  match fuel with
  | 0 => .error "fuel exhausted"
  | fuel + 1 => do
    let (e, it2) ← parse_expr fuel it 0
    let exprs2 := exprs ++ [e]
    match it2 with
    | .RightParen :: it3 =>
      match exprs2 with
      | [single] => .ok (single, it3)
      | _ => .ok (.Tuple exprs2, it3)
    | .Comma :: it3 => parse_group fuel it3 exprs2
    | _ => .error "Missing right parenthesis"

/-- parse_infix from parser.rs (renamed here): consume a binary
operator token and parse its right operand at the given precedence. -/
def parse_infix_op (fuel : ℕ) (left : Expr) (it : List Token)
    (precedence : ℕ) : Except String (Expr × List Token) :=
  match fuel with
  | 0 => .error "fuel exhausted"
  | fuel + 1 =>
    match it with
    | [] => .error "No more tokens"
    | t :: rest =>
      let op : Option Op :=
        match t with
        | .Add => some .Add
        | .Subtract => some .Subtract
        | .Multiply => some .Multiply
        | .Divide => some .Divide
        | .Modulus => some .Modulus
        | .Exponent => some .Exponent
        | .Equals => some .Equals
        | _ => none
      match op with
      | none => .error "Unexpected token"
      | some op => do
        let (right, it2) ← parse_expr fuel rest precedence
        pure (.BinaryExpr left op right, it2)
end

/-- parse from parser.rs: empty input is an empty Tuple; otherwise one
expression, optionally followed by `:=` and a right-hand expression
(producing Assign with no check on the target); any other trailing
token is an error.  Tokens remaining after the assignment right-hand
side are ignored, as in the source. -/
def parse (tokens : List Token) : Except String Expr :=
  match tokens with
  | [] => .ok (.Tuple [])
  | _ => do
    let fuel := 8 * tokens.length + 8
    let (lhs, rest) ← parse_expr fuel tokens 0
    match rest with
    | [] => pure lhs
    | .Assign :: rest2 => do
      let (rhs, _) ← parse_expr fuel rest2 0
      pure (.Assign lhs rhs)
    | _ :: _ => .error "Unexpected token"

/-- apply_associative from evaluator.rs: rotate a same-operator left
child into the right-hand side, producing a right-nested run. -/
def apply_associative : Op → Expr → Expr → Expr × Expr
  | op, .BinaryExpr a inner_op b, rhs =>
    if inner_op = op then
      let br := apply_associative op b rhs
      (a, .BinaryExpr br.1 op br.2)
    else (.BinaryExpr a inner_op b, rhs)
  | _, lhs, rhs => (lhs, rhs)

/-- normalize from evaluator.rs: recurse children-first on BinaryExpr;
Adjacent becomes Multiply; `a − b` becomes `a + (−1 ∙ b)`; `a ÷ b`
becomes `a ∙ (b ^ −1)`; a resulting Add or Multiply is re-associated
with apply_associative.  Every non-BinaryExpr node (including Tuple and
Assign, whose children are not visited) passes through unchanged. -/
def normalize : Expr → Expr
  | .BinaryExpr lhs0 op0 rhs0 =>
    let lhs := normalize lhs0
    let rhs := normalize rhs0
    let op := if op0 = .Adjacent then Op.Multiply else op0
    let opRhs : Op × Expr :=
      if op = .Subtract then
        (.Add, .BinaryExpr (.Number (-1)) .Multiply rhs)
      else if op = .Divide then
        (.Multiply, .BinaryExpr rhs .Exponent (.Number (-1)))
      else (op, rhs)
    let lr : Expr × Expr :=
      if opRhs.1 = .Multiply ∨ opRhs.1 = .Add then
        apply_associative opRhs.1 lhs opRhs.2
      else (lhs, opRhs.2)
    .BinaryExpr lr.1 opRhs.1 lr.2
  | e => e

/-- BigRational::new from the num crate: reduce the fraction `n / d`,
carrying the sign on the numerator; a zero denominator panics, which is
modelled by `none`.  Division in `ℚ` performs exactly this reduction. -/
def ratNew (n d : ℤ) : Option ℚ :=
  if d = 0 then none else some ((n : ℚ) / (d : ℚ))

/-- BigInt::to_usize: succeeds exactly on values that fit a 64-bit
unsigned machine integer. -/
def to_usize (n : ℤ) : Option ℕ :=
  if 0 ≤ n ∧ n < 2 ^ 64 then some n.toNat else none

/-- BigInt::to_i32: succeeds exactly on values that fit a 32-bit
signed machine integer. -/
def to_i32 (n : ℤ) : Option ℤ :=
  if -(2 ^ 31) ≤ n ∧ n < 2 ^ 31 then some n else none

/-- BigInt::to_isize: succeeds exactly on values that fit a 64-bit
signed machine integer. -/
def to_isize (n : ℤ) : Option ℤ :=
  if -(2 ^ 63) ≤ n ∧ n < 2 ^ 63 then some n else none

/-- real_power from evaluator.rs.  Result `some (some q)`: the power
folds to the rational `q`; `some none`: no fold (the node stays
symbolic); `none`: a panic.  The branches, in source order: a
non-integer exponent never folds; exponent −1 builds the reciprocal
with BigRational::new (panicking on base 0); an integer base with
absolute value 1 is returned unchanged; an integer base with a usize
exponent is exact integer exponentiation; otherwise machine-sized
numerator and exponent use Ratio::new(a.numer, b.denom).pow(p) — note
the source reads the divisor from the EXPONENT denominator, not the
base denominator — where raising zero to a negative power panics.
Overflow of the machine-sized intermediate is not modelled. -/
def real_power (a b : ℚ) : Option (Option ℚ) :=
  if b.den ≠ 1 then some none
  else if b.num = -1 then
    match ratNew (a.den : ℤ) a.num with
    | none => none
    | some q => some (some q)
  else if a.den = 1 ∧ a.num.natAbs = 1 then
    some (some a)
  else
    match (if a.den = 1 then to_usize b.num else none) with
    | some e => some (some ((a.num ^ e : ℤ) : ℚ))
    | none =>
      match to_i32 b.num, to_isize a.num, to_isize (b.den : ℤ) with
      | some p, some n, some d =>
        if p < 0 ∧ n = 0 then none
        else some (some (((n : ℚ) / (d : ℚ)) ^ p))
      | _, _, _ => some none

/-- The coefficient strip at the top of the first loop in simplify_add:
a simplified addend of the shape `Number c ∙ f` becomes the pair
(c, f); anything else keeps coefficient 1. -/
def simplify_extract : Expr → ℚ × Expr
  | .BinaryExpr (.Number c) .Multiply f => (c, f)
  | e => (1, e)

/-- The inner absorption scan of the simplify_add merge loop: running
from position i with item `x` and accumulated coefficient `c`, add the
coefficient of every later structurally-equal item into `c` and zero
that entry out. -/
def absorb_add (x : Expr) : ℚ → List (ℚ × Expr) → ℚ × List (ℚ × Expr)
  | c, [] => (c, [])
  | c, (d, y) :: rest =>
    if exprEq x y then
      let cr := absorb_add x (c + d) rest
      (cr.1, (0, y) :: cr.2)
    else
      let cr := absorb_add x c rest
      (cr.1, (d, y) :: cr.2)

/-- The pairwise merge loop of simplify_add, iterated position by
position.  The ℕ fuel equals the list length (absorb_add preserves
length, so the fuel never runs out). -/
def merge_add_go : ℕ → List (ℚ × Expr) → List (ℚ × Expr)
  | 0, l => l
  | _ + 1, [] => []
  | n + 1, (c, x) :: rest =>
    if c = 0 then (c, x) :: merge_add_go n rest
    else
      let cr := absorb_add x c rest
      (cr.1, x) :: merge_add_go n cr.2

/-- The merge loop of simplify_add over the whole list. -/
def merge_add (l : List (ℚ × Expr)) : List (ℚ × Expr) :=
  merge_add_go l.length l

/-- Right-nested chain building shared by the two rebuild loops: the
Rust code pops from the end of the replacement vector, so a list
[a, b, c] becomes `a op (b op c)`; an empty list gives the default. -/
def build_chain (op : Op) (dflt : Expr) : List Expr → Expr
  | [] => dflt
  | [e] => e
  | e :: rest => .BinaryExpr e op (build_chain op dflt rest)

/-- The rebuild phase of simplify_add: sum all purely numeric addends
(scaled by their coefficients) into one scalar, keep the other items as
`item` (coefficient 1) or `coefficient ∙ item` (coefficient neither 0
nor 1), prepend the scalar when non-zero, and fold into a right-nested
Add chain; an empty result is Number 0. -/
def rebuild_add (pairs : List (ℚ × Expr)) : Expr :=
  let sum : ℚ := pairs.foldl
    (fun s cx => match cx.2 with | .Number n => s + cx.1 * n | _ => s) 0
  let replacement : List Expr := pairs.filterMap
    (fun cx => match cx.2 with
      | .Number _ => none
      | item =>
        if cx.1 = 1 then some item
        else if cx.1 ≠ 0 then
          some (.BinaryExpr (.Number cx.1) .Multiply item)
        else none)
  let replacement := if sum ≠ 0 then .Number sum :: replacement else replacement
  build_chain .Add (.Number 0) replacement

/-- simplify_add from evaluator.rs, applied to the already-simplified
flattened addend list (the flattening and the per-item simplify calls
live in `simplify` and `add_items` below). -/
def simplify_add (items : List Expr) : Expr :=
  rebuild_add (merge_add (items.map simplify_extract))

/-- The per-item preparation loop of simplify_multiply: a numeric
factor contributes to the running scalar (its term coefficient is
zeroed so it is dropped later); a factor `a ^ Number n` is unpacked
into base `a` with power `n`; anything else is a base with power 1.
Terms are (coefficient, base, power) triples. -/
def mul_term : Expr → ℚ × Expr × ℚ
  | .Number n => (0, .Number n, 1)
  | .BinaryExpr a .Exponent (.Number n) => (1, a, n)
  | e => (1, e, 1)

/-- The running scalar coefficient of simplify_multiply: the ordered
product of all purely numeric factors. -/
def mul_coeff (items : List Expr) : ℚ :=
  items.foldl (fun acc i => match i with | .Number n => acc * n | _ => acc) 1

/-- The inner absorption scan of the simplify_multiply merge loop:
multiply coefficients and add powers of later terms with a
structurally equal base, zeroing their coefficients. -/
def absorb_mul (x : Expr) :
    ℚ → ℚ → List (ℚ × Expr × ℚ) → ℚ × ℚ × List (ℚ × Expr × ℚ)
  | c, p, [] => (c, p, [])
  | c, p, (d, y, q) :: rest =>
    if exprEq x y then
      let r := absorb_mul x (c * d) (p + q) rest
      (r.1, r.2.1, (0, y, q) :: r.2.2)
    else
      let r := absorb_mul x c p rest
      (r.1, r.2.1, (d, y, q) :: r.2.2)

/-- The pairwise merge loop of simplify_multiply, iterated position by
position, with fuel equal to the list length as in merge_add_go. -/
def merge_mul_go : ℕ → List (ℚ × Expr × ℚ) → List (ℚ × Expr × ℚ)
  | 0, l => l
  | _ + 1, [] => []
  | n + 1, (c, x, p) :: rest =>
    if c = 0 then (c, x, p) :: merge_mul_go n rest
    else
      let r := absorb_mul x c p rest
      (r.1, x, r.2.1) :: merge_mul_go n r.2.2

/-- The merge loop of simplify_multiply over the whole list. -/
def merge_mul (l : List (ℚ × Expr × ℚ)) : List (ℚ × Expr × ℚ) :=
  merge_mul_go l.length l

/-- simplify_multiply from evaluator.rs, applied to the
already-simplified flattened factor list: collect the scalar
coefficient, unpack and merge (base, power) terms, rebuild each
surviving term as `base`, `base ^ power`, or `coefficient ∙ base`
(power 0 terms are dropped entirely); scalar 0 collapses everything to
Number 0; the scalar is prepended when it is not 1; an empty result is
Number 1. -/
def simplify_multiply (items : List Expr) : Expr :=
  let coeff := mul_coeff items
  let merged := merge_mul (items.map mul_term)
  let replacement : List Expr := merged.filterMap
    (fun t => match t with
      | (c, b, p) =>
        if p = 0 then none
        else
          let e := if p = 1 then b else .BinaryExpr b .Exponent (.Number p)
          if c = 1 then some e
          else if c ≠ 0 then some (.BinaryExpr (.Number c) .Multiply e)
          else none)
  if coeff = 0 then .Number 0
  else
    build_chain .Multiply (.Number 1)
      (if coeff ≠ 1 then .Number coeff :: replacement else replacement)

/-- The flattening while-let loop at the top of simplify_add: the
addend spine of an expression along right-nested Add. -/
def addSpine : Expr → List Expr
  | .BinaryExpr l .Add r => l :: addSpine r
  | e => [e]

/-- The flattening while-let loop at the top of simplify_multiply: the
factor spine of an expression along right-nested Multiply. -/
def mulSpine : Expr → List Expr
  | .BinaryExpr l .Multiply r => l :: mulSpine r
  | e => [e]

mutual
/-- simplify (and its body simplify_inner, which in the source only it
calls) from evaluator.rs: an Add or Multiply chain is flattened, every
item is simplified (simplifyItemsF), and the items go to simplify_add
respectively simplify_multiply; an Exponent simplifies both sides and
folds through real_power when both are numbers; every other node is
returned unchanged, children untouched.  `none` models a panic inside
real_power.

The recursion is bounded by an explicit fuel to make it structural;
the wrapper `simplify` below passes `2 * exprSize e`, which is always
sufficient: the invariant fuel ≥ `2 * exprSize e` for simplifyF and
fuel ≥ `2 * (total item size) + 1` for simplifyItemsF is
re-established by every recursive call (spine items are strict
subterms), so the fuel-exhausted branches are unreachable from the
wrapper. -/
def simplifyF : ℕ → Expr → Option Expr
  | 0, _ => none
  | fuel + 1, e =>
    match e with
    | .BinaryExpr l .Add r => do
      let items ← simplifyItemsF fuel (l :: addSpine r)
      pure (simplify_add items)
    | .BinaryExpr l .Multiply r => do
      let items ← simplifyItemsF fuel (l :: mulSpine r)
      pure (simplify_multiply items)
    | .BinaryExpr a .Exponent b => do
      let a2 ← simplifyF fuel a
      let b2 ← simplifyF fuel b
      match a2, b2 with
      | .Number x, .Number y =>
        match real_power x y with
        | none => none
        | some none => some (.BinaryExpr (.Number x) .Exponent (.Number y))
        | some (some q) => some (.Number q)
      | a3, b3 => some (.BinaryExpr a3 .Exponent b3)
    | e => some e
termination_by structural fuel _ => fuel

/-- The per-item simplify loop of simplify_add and simplify_multiply:
simplify every item of the flattened chain, left to right. -/
def simplifyItemsF : ℕ → List Expr → Option (List Expr)
  | 0, _ => none
  | _ + 1, [] => some []
  | fuel + 1, e :: es => do
    let e2 ← simplifyF fuel e
    let rest ← simplifyItemsF fuel es
    pure (e2 :: rest)
termination_by structural fuel _ => fuel
end

/-- simplify from evaluator.rs: see simplifyF.  The fuel
`2 * exprSize e` is always sufficient, so this function never takes
the fuel-exhausted branch. -/
def simplify (e : Expr) : Option Expr :=
  simplifyF (2 * exprSize e) e

/-- Scope from context.rs: the long-lived name-to-expression store. -/
structure Scope where
  vars : List (String × Expr)

/-- Context from context.rs: a scope together with the set of names
whose resolution is in progress. -/
structure Context where
  scope : Scope
  evaluating : List String

/-- Context::insert: HashMap overwrite semantics. -/
def Context.insert (c : Context) (name : String) (value : Expr) : Context :=
  { c with scope := ⟨(name, value) :: c.scope.vars.filter (fun p => p.1 ≠ name)⟩ }

/-- Context::get: a name currently being evaluated reads as absent;
otherwise the stored binding is returned (a copy).  NOTE: this function
is never called by evaluate or by anything reachable from it. -/
def Context.get (c : Context) (name : String) : Option Expr :=
  if name ∈ c.evaluating then none
  else (c.scope.vars.find? (fun p => p.1 = name)).map (fun p => p.2)

/-- Context::evaluate: a child context with `name` marked in progress. -/
def Context.evaluate (c : Context) (name : String) : Context :=
  ⟨c.scope, name :: c.evaluating⟩

/-- evaluate from evaluator.rs: normalize then simplify.  The context
argument is unused by the body, and the Rust Result is always Ok, so
the only failure mode is a panic (`none`). -/
def evaluate (expression : Expr) (context : Context) : Option Expr :=
  simplify (normalize expression)

/-- What one accepted input line leads to after parsing, following the
input function in main.rs. -/
inductive Outcome where
  | parseFailed (msg : String)
  | stored (scope : Scope)
  | cannotAssign (lhs : Expr)
  | printed (result : Expr)
  | crashed

/-- The statement dispatch of input in main.rs, after parsing: an
Assign to a bare Name inserts the unevaluated right-hand side into the
scope and prints nothing; an Assign to anything else reports an error
without evaluating; any other expression is evaluated and printed. -/
def dispatch (expression : Expr) (scope : Scope) : Outcome :=
  match expression with
  | .Assign lhs rhs =>
    match lhs with
    | .Name n => .stored (Context.insert ⟨scope, []⟩ n rhs).scope
    | _ => .cannotAssign lhs
  | e =>
    match evaluate e ⟨scope, []⟩ with
    | some result => .printed result
    | none => .crashed

/-- input from main.rs restricted to its post-tokenizer part: parse the
tokens of one line and dispatch the resulting statement. -/
def input (tokens : List Token) (scope : Scope) : Outcome :=
  match parse tokens with
  | .error e => .parseFailed e
  | .ok expression => dispatch expression scope


/-- Every expression has at least one node. -/
theorem exprSize_pos : ∀ e : Expr, 1 ≤ exprSize e := by
  intro e; cases e <;> simp [exprSize] <;> omega

/-- Unfolding helper: expose one successor step of the simplifier fuel
so the simplifyF equations apply to a symbolic expression. -/
theorem simplify_eq_succ (e : Expr) :
    simplify e = simplifyF (2 * exprSize e - 1 + 1) e := by
  rw [simplify]
  congr 1
  have := exprSize_pos e
  omega

/-- C1: the claim says `1 / 0` fails with a DivisionByZero error.  In
the code there is no such error: evaluation of `1 ÷ 0` reaches
real_power with base 0 and exponent −1, whose reciprocal branch calls
BigRational::new with a zero denominator and panics (modelled by
`none`); and `1 % 0` does not fail at all — Modulus is never evaluated,
so the expression is returned symbolically. -/
theorem c1_division_by_zero_panics :
    parse [.Number 1, .Divide, .Number 0] =
      .ok (.BinaryExpr (.Number 1) .Divide (.Number 0)) ∧
    (∀ ctx : Context,
      evaluate (.BinaryExpr (.Number 1) .Divide (.Number 0)) ctx = none) ∧
    real_power 0 (-1) = none ∧
    parse [.Number 1, .Modulus, .Number 0] =
      .ok (.BinaryExpr (.Number 1) .Modulus (.Number 0)) ∧
    (∀ ctx : Context,
      evaluate (.BinaryExpr (.Number 1) .Modulus (.Number 0)) ctx =
        some (.BinaryExpr (.Number 1) .Modulus (.Number 0))) :=
  ⟨rfl, fun _ => rfl, rfl, rfl, fun _ => rfl⟩

/-- C2 counterexample: after `x := 5` is stored, evaluating `x + 1`
against the same store yields the symbolic `1 + x`, not `6`: evaluate
never consults the store. -/
theorem c2_counterexample :
    parse [.Name "x", .Assign, .Number 5] =
      .ok (.Assign (.Name "x") (.Number 5)) ∧
    input [.Name "x", .Assign, .Number 5] ⟨[]⟩ =
      .stored ⟨[("x", .Number 5)]⟩ ∧
    parse [.Name "x", .Add, .Number 1] =
      .ok (.BinaryExpr (.Name "x") .Add (.Number 1)) ∧
    evaluate (.BinaryExpr (.Name "x") .Add (.Number 1))
        ⟨⟨[("x", .Number 5)]⟩, []⟩ =
      some (.BinaryExpr (.Number 1) .Add (.Name "x")) ∧
    some (.BinaryExpr (.Number 1) .Add (.Name "x")) ≠
      some (Expr.Number 6) := by
  refine ⟨rfl, rfl, rfl, ?_, ?_⟩
  · show simplify (.BinaryExpr (.Name "x") .Add (.Number 1)) = _
    norm_num [simplify, exprSize, exprSizeList, simplifyF, simplifyItemsF, addSpine,
      mulSpine, real_power, simplify_add, simplify_multiply, simplify_extract, merge_add,
      merge_add_go, absorb_add, merge_mul, merge_mul_go, absorb_mul, rebuild_add,
      build_chain, mul_term, mul_coeff, exprEq, exprEqList, List.map, List.foldl,
      List.filterMap, ratNew, to_usize, to_i32, to_isize]
  · intro h
    rw [Option.some.injEq] at h
    exact Expr.noConfusion h

/-- C2 amended: evaluating an ordinary expression never substitutes
stored bindings — evaluate does not read its context at all
(Context.get has no caller), so `x + 1` after `x := 5` evaluates to the
symbolic `1 + x` rather than `6`. -/
theorem c2_amended :
    (∀ (e : Expr) (ctx1 ctx2 : Context), evaluate e ctx1 = evaluate e ctx2) ∧
    input [.Name "x", .Assign, .Number 5] ⟨[]⟩ =
      .stored ⟨[("x", .Number 5)]⟩ ∧
    (parse [.Name "x", .Add, .Number 1]).map
        (fun e => evaluate e ⟨⟨[("x", .Number 5)]⟩, []⟩) =
      .ok (some (.BinaryExpr (.Number 1) .Add (.Name "x"))) := by
  refine ⟨fun _ _ _ => rfl, rfl, ?_⟩
  show Except.ok (simplify (Expr.BinaryExpr (.Name "x") .Add (.Number 1))) = _
  norm_num [simplify, exprSize, exprSizeList, simplifyF, simplifyItemsF, addSpine,
    mulSpine, real_power, simplify_add, simplify_multiply, simplify_extract, merge_add,
    merge_add_go, absorb_add, merge_mul, merge_mul_go, absorb_mul, rebuild_add,
    build_chain, mul_term, mul_coeff, exprEq, exprEqList, List.map, List.foldl,
    List.filterMap, ratNew, to_usize, to_i32, to_isize]

/-- C10: simplify returns any node that is not an Add, Multiply or
Exponent BinaryExpr unchanged, children included: Modulus and Equals
nodes, Tuples, Assigns and leaves all pass through, and in particular
the normalized `(1 + 2) % 3` keeps its inner addition unfolded. -/
theorem c10_simplify_ignores_other_nodes :
    (∀ (l r : Expr) (op : Op), op ≠ .Add → op ≠ .Multiply → op ≠ .Exponent →
      simplify (.BinaryExpr l op r) = some (.BinaryExpr l op r)) ∧
    (∀ es, simplify (.Tuple es) = some (.Tuple es)) ∧
    (∀ a b, simplify (.Assign a b) = some (.Assign a b)) ∧
    (parse [.LeftParen, .Number 1, .Add, .Number 2, .RightParen, .Modulus, .Number 3] =
      .ok (.BinaryExpr (.BinaryExpr (.Number 1) .Add (.Number 2)) .Modulus (.Number 3))) ∧
    (∀ ctx : Context,
      evaluate (.BinaryExpr (.BinaryExpr (.Number 1) .Add (.Number 2)) .Modulus (.Number 3)) ctx =
        some (.BinaryExpr (.BinaryExpr (.Number 1) .Add (.Number 2)) .Modulus (.Number 3))) := by
  refine ⟨?_, ?_, ?_, rfl, fun _ => rfl⟩
  · intro l r op h1 h2 h3
    rw [simplify_eq_succ]
    cases op <;> simp only [simplifyF] <;> first
      | rfl
      | exact absurd rfl (by assumption)
  · intro es; rw [simplify_eq_succ]; simp only [simplifyF]
  · intro a b; rw [simplify_eq_succ]; simp only [simplifyF]

/-- C10 witness: the general clause applied at `1 % 2`. -/
theorem c10_witness :
    simplify (.BinaryExpr (.Number 1) .Modulus (.Number 2)) =
      some (.BinaryExpr (.Number 1) .Modulus (.Number 2)) :=
  c10_simplify_ignores_other_nodes.1 (Expr.Number 1) (Expr.Number 2) Op.Modulus
    (fun h => Op.noConfusion h) (fun h => Op.noConfusion h) (fun h => Op.noConfusion h)




/-- real_power folds `2 ^ -1` to the reciprocal 1/2. -/
theorem real_power_two_neg_one : real_power 2 (-1) = some (some (1/2)) := by
  norm_num [real_power, ratNew]

/-- real_power folds `3 ^ -1` to the reciprocal 1/3. -/
theorem real_power_three_neg_one : real_power 3 (-1) = some (some (1/3)) := by
  norm_num [real_power, ratNew]

/-- real_power folds `(2/3) ^ 2` to 4, not 4/9: the final branch
divides the base numerator by the EXPONENT denominator. -/
theorem real_power_two_thirds_sq : real_power (2/3) 2 = some (some 4) := by
  norm_num [real_power, ratNew, to_usize, to_i32, to_isize]

/-- real_power does not fold a non-integer exponent. -/
theorem real_power_neg_one_half : real_power (-1) (1/2) = some none := by
  norm_num [real_power]

/-- C6: the folding of `2 ^ 3` to 8 and of `2 ^ -1` to 1/2 is as the
claim states, but the fold is NOT exact rational exponentiation for
every integer exponent: real_power reads the divisor of its final
branch from the exponent denominator (`b.denom()`) instead of the base
denominator, so `(2 ÷ 3) ^ 2` folds to `Number 4` although the exact
value is 4/9. -/
theorem c6_exponent_folding :
    parse [.Number 2, .Exponent, .Number 3] =
      .ok (.BinaryExpr (.Number 2) .Exponent (.Number 3)) ∧
    (∀ ctx : Context, evaluate (.BinaryExpr (.Number 2) .Exponent (.Number 3)) ctx =
      some (.Number 8)) ∧
    parse [.Number 2, .Exponent, .Subtract, .Number 1] =
      .ok (.BinaryExpr (.Number 2) .Exponent
        (.BinaryExpr (.Number 0) .Subtract (.Number 1))) ∧
    (∀ ctx : Context, evaluate (.BinaryExpr (.Number 2) .Exponent
        (.BinaryExpr (.Number 0) .Subtract (.Number 1))) ctx =
      some (.Number (1/2))) ∧
    parse [.LeftParen, .Number 2, .Divide, .Number 3, .RightParen, .Exponent, .Number 2] =
      .ok (.BinaryExpr (.BinaryExpr (.Number 2) .Divide (.Number 3)) .Exponent (.Number 2)) ∧
    (∀ ctx : Context, evaluate
        (.BinaryExpr (.BinaryExpr (.Number 2) .Divide (.Number 3)) .Exponent (.Number 2)) ctx =
      some (.Number 4)) ∧
    real_power (2/3) 2 = some (some 4) ∧
    (2/3 : ℚ) ^ (2 : ℕ) = 4/9 ∧
    (4 : ℚ) ≠ (4/9 : ℚ) := by
  refine ⟨rfl, fun _ => rfl, rfl, fun _ => ?_, rfl, fun _ => ?_,
    real_power_two_thirds_sq, by norm_num, by norm_num⟩
  · show simplify (.BinaryExpr (.Number 2) .Exponent
        (.BinaryExpr (.Number 0) .Add (.BinaryExpr (.Number (-1)) .Multiply (.Number 1)))) = _
    simp only [simplify, exprSize, exprSizeList, simplifyF, simplifyItemsF, addSpine, mulSpine]
    norm_num [real_power_two_neg_one, simplify_add, simplify_multiply, simplify_extract, merge_add, merge_add_go,
      absorb_add, merge_mul, merge_mul_go, absorb_mul, rebuild_add, build_chain, mul_term,
      mul_coeff, exprEq, exprEqList, List.map, List.foldl, List.filterMap]
  · show simplify (.BinaryExpr
        (.BinaryExpr (.Number 2) .Multiply (.BinaryExpr (.Number 3) .Exponent (.Number (-1))))
        .Exponent (.Number 2)) = _
    simp only [simplify, exprSize, exprSizeList, simplifyF, simplifyItemsF, addSpine, mulSpine]
    norm_num [real_power_three_neg_one, real_power_two_thirds_sq, simplify_add, simplify_multiply, simplify_extract, merge_add, merge_add_go,
      absorb_add, merge_mul, merge_mul_go, absorb_mul, rebuild_add, build_chain, mul_term,
      mul_coeff, exprEq, exprEqList, List.map, List.foldl, List.filterMap]

/-- C7 counterexample: with base −1 and exponent the Number 1/2 (both
sides of the Exponent node are Numbers and the base is −1), simplify
does not return the base: the non-integer exponent makes real_power
return no fold, so the node stays symbolic. -/
theorem c7_counterexample :
    simplify (.BinaryExpr (.Number (-1)) .Exponent (.Number (1/2))) =
      some (.BinaryExpr (.Number (-1)) .Exponent (.Number (1/2))) ∧
    (.BinaryExpr (.Number (-1)) .Exponent (.Number (1/2)) : Expr) ≠ .Number (-1) := by
  constructor
  · simp only [simplify, exprSize, exprSizeList, simplifyF, simplifyItemsF, addSpine, mulSpine]
    norm_num [real_power_neg_one_half]
  · exact fun h => Expr.noConfusion h

/-- C7 amended: when both sides of an Exponent node are Numbers, the
base is 1 or −1 and the exponent is an INTEGER, simplify returns the
base itself, whatever the sign or parity of the exponent; for a
non-integer exponent the node stays symbolic instead (see the
counterexample). -/
theorem c7_amended : ∀ a b : ℚ, (a = 1 ∨ a = -1) → b.den = 1 →
    simplify (.BinaryExpr (.Number a) .Exponent (.Number b)) = some (.Number a) := by
  intro a b ha hb
  show simplifyF 6 (.BinaryExpr (.Number a) .Exponent (.Number b)) = some (.Number a)
  simp only [simplifyF]
  rcases ha with rfl | rfl <;>
    by_cases hbn : b.num = -1 <;>
    norm_num [real_power, ratNew, hb, hbn]

/-- C7 witness: `(−1) ^ 3` collapses to −1. -/
theorem c7_witness :
    simplify (.BinaryExpr (.Number (-1)) .Exponent (.Number 3)) = some (.Number (-1)) :=
  c7_amended (-1) 3 (Or.inr rfl) (by norm_num)


/-- C8: like-term merging itself works (with explicit `∙` the sum
`2 ∙ x + 3 ∙ x` merges to `5 ∙ x`, equal to the simplified `5 x`), but
the claimed equation fails for the input `2 x + 3 x`: implicit
multiplication parses its right operand at precedence 0, so the input
parses as `2 ∙ (x + 3 ∙ x)` and the pipeline yields `2 ∙ (4 ∙ x)`,
structurally different from `5 ∙ x`. -/
theorem c8_like_term_merge :
    parse [.Number 2, .Name "x", .Add, .Number 3, .Name "x"] =
      .ok (.BinaryExpr (.Number 2) .Adjacent
        (.BinaryExpr (.Name "x") .Add (.BinaryExpr (.Number 3) .Adjacent (.Name "x")))) ∧
    (∀ ctx : Context, evaluate (.BinaryExpr (.Number 2) .Adjacent
        (.BinaryExpr (.Name "x") .Add (.BinaryExpr (.Number 3) .Adjacent (.Name "x")))) ctx =
      some (.BinaryExpr (.Number 2) .Multiply
        (.BinaryExpr (.Number 4) .Multiply (.Name "x")))) ∧
    parse [.Number 5, .Name "x"] = .ok (.BinaryExpr (.Number 5) .Adjacent (.Name "x")) ∧
    (∀ ctx : Context, evaluate (.BinaryExpr (.Number 5) .Adjacent (.Name "x")) ctx =
      some (.BinaryExpr (.Number 5) .Multiply (.Name "x"))) ∧
    (.BinaryExpr (.Number 2) .Multiply (.BinaryExpr (.Number 4) .Multiply (.Name "x")) : Expr) ≠
      .BinaryExpr (.Number 5) .Multiply (.Name "x") ∧
    parse [.Number 2, .Multiply, .Name "x", .Add, .Number 3, .Multiply, .Name "x"] =
      .ok (.BinaryExpr (.BinaryExpr (.Number 2) .Multiply (.Name "x")) .Add
        (.BinaryExpr (.Number 3) .Multiply (.Name "x"))) ∧
    (∀ ctx : Context, evaluate (.BinaryExpr
        (.BinaryExpr (.Number 2) .Multiply (.Name "x")) .Add
        (.BinaryExpr (.Number 3) .Multiply (.Name "x"))) ctx =
      some (.BinaryExpr (.Number 5) .Multiply (.Name "x"))) := by
  refine ⟨rfl, fun _ => ?_, rfl, fun _ => ?_, by norm_num, rfl, fun _ => ?_⟩
  · show simplify (.BinaryExpr (.Number 2) .Multiply
        (.BinaryExpr (.Name "x") .Add (.BinaryExpr (.Number 3) .Multiply (.Name "x")))) = _
    simp only [simplify, exprSize, exprSizeList, simplifyF, simplifyItemsF, addSpine, mulSpine]
    norm_num [simplify_add, simplify_multiply, simplify_extract, merge_add, merge_add_go,
      absorb_add, merge_mul, merge_mul_go, absorb_mul, rebuild_add, build_chain, mul_term,
      mul_coeff, exprEq, exprEqList, List.map, List.foldl, List.filterMap]
  · show simplify (.BinaryExpr (.Number 5) .Multiply (.Name "x")) = _
    simp only [simplify, exprSize, exprSizeList, simplifyF, simplifyItemsF, addSpine, mulSpine]
    norm_num [simplify_add, simplify_multiply, simplify_extract, merge_add, merge_add_go,
      absorb_add, merge_mul, merge_mul_go, absorb_mul, rebuild_add, build_chain, mul_term,
      mul_coeff, exprEq, exprEqList, List.map, List.foldl, List.filterMap]
  · show simplify (.BinaryExpr
        (.BinaryExpr (.Number 2) .Multiply (.Name "x")) .Add
        (.BinaryExpr (.Number 3) .Multiply (.Name "x"))) = _
    simp only [simplify, exprSize, exprSizeList, simplifyF, simplifyItemsF, addSpine, mulSpine]
    norm_num [simplify_add, simplify_multiply, simplify_extract, merge_add, merge_add_go,
      absorb_add, merge_mul, merge_mul_go, absorb_mul, rebuild_add, build_chain, mul_term,
      mul_coeff, exprEq, exprEqList, List.map, List.foldl, List.filterMap]

/-- Distinct variable names compare unequal in the merge loops. -/
theorem string_x_ne_y : ("x" : String) ≠ "y" := by decide

/-- C5 counterexample: for the parsed expression `(x + x) ∙ y` the
pipeline returns `(2 ∙ x) ∙ y`, whose own pipeline image is the
differently-shaped `2 ∙ (x ∙ y)`, so
simplify∘normalize∘simplify∘normalize differs from simplify∘normalize
on this input. -/
theorem c5_counterexample :
    parse [.LeftParen, .Name "x", .Add, .Name "x", .RightParen, .Multiply, .Name "y"] =
      .ok (.BinaryExpr (.BinaryExpr (.Name "x") .Add (.Name "x")) .Multiply (.Name "y")) ∧
    simplify (normalize (.BinaryExpr (.BinaryExpr (.Name "x") .Add (.Name "x")) .Multiply (.Name "y"))) =
      some (.BinaryExpr (.BinaryExpr (.Number 2) .Multiply (.Name "x")) .Multiply (.Name "y")) ∧
    simplify (normalize (.BinaryExpr (.BinaryExpr (.Number 2) .Multiply (.Name "x")) .Multiply (.Name "y"))) =
      some (.BinaryExpr (.Number 2) .Multiply (.BinaryExpr (.Name "x") .Multiply (.Name "y"))) ∧
    (.BinaryExpr (.Number 2) .Multiply (.BinaryExpr (.Name "x") .Multiply (.Name "y")) : Expr) ≠
      .BinaryExpr (.BinaryExpr (.Number 2) .Multiply (.Name "x")) .Multiply (.Name "y") ∧
    (simplify (normalize (.BinaryExpr (.BinaryExpr (.Name "x") .Add (.Name "x")) .Multiply (.Name "y")))).bind
        (fun t => simplify (normalize t)) ≠
      simplify (normalize (.BinaryExpr (.BinaryExpr (.Name "x") .Add (.Name "x")) .Multiply (.Name "y"))) := by
  have h1 : simplify (normalize (.BinaryExpr (.BinaryExpr (.Name "x") .Add (.Name "x")) .Multiply (.Name "y"))) =
      some (.BinaryExpr (.BinaryExpr (.Number 2) .Multiply (.Name "x")) .Multiply (.Name "y")) := by
    show simplify (.BinaryExpr (.BinaryExpr (.Name "x") .Add (.Name "x")) .Multiply (.Name "y")) = _
    simp only [simplify, exprSize, exprSizeList, simplifyF, simplifyItemsF, addSpine, mulSpine]
    norm_num [simplify_add, simplify_multiply, simplify_extract, merge_add, merge_add_go,
      absorb_add, merge_mul, merge_mul_go, absorb_mul, rebuild_add, build_chain, mul_term,
      mul_coeff, exprEq, exprEqList, List.map, List.foldl, List.filterMap]
  have h2 : simplify (normalize (.BinaryExpr (.BinaryExpr (.Number 2) .Multiply (.Name "x")) .Multiply (.Name "y"))) =
      some (.BinaryExpr (.Number 2) .Multiply (.BinaryExpr (.Name "x") .Multiply (.Name "y"))) := by
    show simplify (.BinaryExpr (.Number 2) .Multiply (.BinaryExpr (.Name "x") .Multiply (.Name "y"))) = _
    simp only [simplify, exprSize, exprSizeList, simplifyF, simplifyItemsF, addSpine, mulSpine]
    norm_num [simplify_add, simplify_multiply, simplify_extract, merge_add, merge_add_go,
      absorb_add, merge_mul, merge_mul_go, absorb_mul, rebuild_add, build_chain, mul_term,
      mul_coeff, exprEq, exprEqList, List.map, List.foldl, List.filterMap, string_x_ne_y]
  have hne : (.BinaryExpr (.Number 2) .Multiply (.BinaryExpr (.Name "x") .Multiply (.Name "y")) : Expr) ≠
      .BinaryExpr (.BinaryExpr (.Number 2) .Multiply (.Name "x")) .Multiply (.Name "y") := by
    intro h
    exact Expr.noConfusion (Expr.BinaryExpr.inj h).1
  refine ⟨rfl, h1, h2, hne, ?_⟩
  rw [h1]
  show simplify (normalize (.BinaryExpr (.BinaryExpr (.Number 2) .Multiply (.Name "x")) .Multiply (.Name "y"))) ≠ _
  rw [h2]
  exact fun h => hne (Option.some.inj h)

/-- C5 amended: the pipeline is idempotent exactly on those inputs
whose simplified form normalizes back to the input normal form: if
simplify (normalize e) = some s and normalize s = normalize e, then a
second normalize-simplify pass returns the same result.  The
counterexample shows an `e` violating the side condition, for which
idempotence indeed fails. -/
theorem c5_amended : ∀ e s : Expr, simplify (normalize e) = some s →
    normalize s = normalize e →
    (simplify (normalize e)).bind (fun t => simplify (normalize t)) =
      simplify (normalize e) := by
  intro e s h1 h2
  rw [h1]
  show simplify (normalize s) = some s
  rw [h2, h1]

/-- The pipeline fixes `1 + x`. -/
theorem pipeline_fixes_one_add_x :
    simplify (normalize (.BinaryExpr (.Number 1) .Add (.Name "x"))) =
      some (.BinaryExpr (.Number 1) .Add (.Name "x")) := by
  show simplify (.BinaryExpr (.Number 1) .Add (.Name "x")) = _
  simp only [simplify, exprSize, exprSizeList, simplifyF, simplifyItemsF, addSpine, mulSpine]
  norm_num [simplify_add, simplify_multiply, simplify_extract, merge_add, merge_add_go,
    absorb_add, merge_mul, merge_mul_go, absorb_mul, rebuild_add, build_chain, mul_term,
    mul_coeff, exprEq, exprEqList, List.map, List.foldl, List.filterMap]

/-- C5 witness: `1 + x` satisfies the side condition — its pipeline
image is itself — so the double pipeline agrees with the single. -/
theorem c5_witness :
    (simplify (normalize (.BinaryExpr (.Number 1) .Add (.Name "x")))).bind
        (fun t => simplify (normalize t)) =
      simplify (normalize (.BinaryExpr (.Number 1) .Add (.Name "x"))) :=
  c5_amended (.BinaryExpr (.Number 1) .Add (.Name "x"))
    (.BinaryExpr (.Number 1) .Add (.Name "x"))
    pipeline_fixes_one_add_x
    rfl

/-- C9 counterexample: parse accepts `(1, 2) := 3` and returns the
Assign node with a Tuple target — it does not fail on a non-Name
assignment target. -/
theorem c9_counterexample :
    parse [.LeftParen, .Number 1, .Comma, .Number 2, .RightParen, .Assign, .Number 3] =
      .ok (.Assign (.Tuple [.Number 1, .Number 2]) (.Number 3)) := rfl

/-- C9 amended: parse builds Assign(left, right) without validating the
target; the bare-Name check lives in the driver (input in main.rs),
which reports a cannot-assign error without evaluating when the left
side is not a bare Name.  A trailing token after the first expression
that is not `:=` (and cannot start a primary, which adjacency would
consume) is a hard parse error. -/
theorem c9_amended :
    parse [.LeftParen, .Number 1, .Comma, .Number 2, .RightParen, .Assign, .Number 3] =
      .ok (.Assign (.Tuple [.Number 1, .Number 2]) (.Number 3)) ∧
    (∀ (e1 e2 : Expr) (scope : Scope), (∀ n, e1 ≠ .Name n) →
      dispatch (.Assign e1 e2) scope = .cannotAssign e1) ∧
    input [.LeftParen, .Number 1, .Comma, .Number 2, .RightParen, .Assign, .Number 3] ⟨[]⟩ =
      .cannotAssign (.Tuple [.Number 1, .Number 2]) ∧
    parse [.Number 1, .RightParen] = .error "Unexpected token" := by
  refine ⟨rfl, ?_, rfl, rfl⟩
  intro e1 e2 scope h
  cases e1 with
  | Name n => exact absurd rfl (h n)
  | Number q => rfl
  | Boolean b => rfl
  | Tuple es => rfl
  | Assign a b => rfl
  | BinaryExpr a op b => rfl


/-- C3 counterexample: `(1 − 2, 3)` parses to a Tuple whose first
element is a Subtract node; normalize returns the Tuple unchanged, so
its output still contains Subtract. -/
theorem c3_counterexample :
    parse [.LeftParen, .Number 1, .Subtract, .Number 2, .Comma, .Number 3, .RightParen] =
      .ok (.Tuple [.BinaryExpr (.Number 1) .Subtract (.Number 2), .Number 3]) ∧
    normalize (.Tuple [.BinaryExpr (.Number 1) .Subtract (.Number 2), .Number 3]) =
      .Tuple [.BinaryExpr (.Number 1) .Subtract (.Number 2), .Number 3] ∧
    containsOp .Subtract
      (normalize (.Tuple [.BinaryExpr (.Number 1) .Subtract (.Number 2), .Number 3])) = true :=
  ⟨rfl, rfl, rfl⟩

/-- C4 counterexample: inside a Tuple, normalize does not re-associate:
`((a+b)+c, d)` and `(a+(b+c), d)` parse to Tuples that normalize to
themselves, structurally different, the first not right-nested. -/
theorem c4_counterexample :
    parse [.LeftParen, .LeftParen, .Name "a", .Add, .Name "b", .RightParen, .Add,
        .Name "c", .Comma, .Name "d", .RightParen] =
      .ok (.Tuple [.BinaryExpr (.BinaryExpr (.Name "a") .Add (.Name "b")) .Add (.Name "c"),
        .Name "d"]) ∧
    parse [.LeftParen, .Name "a", .Add, .LeftParen, .Name "b", .Add, .Name "c", .RightParen,
        .Comma, .Name "d", .RightParen] =
      .ok (.Tuple [.BinaryExpr (.Name "a") .Add (.BinaryExpr (.Name "b") .Add (.Name "c")),
        .Name "d"]) ∧
    normalize (.Tuple [.BinaryExpr (.BinaryExpr (.Name "a") .Add (.Name "b")) .Add (.Name "c"),
        .Name "d"]) =
      .Tuple [.BinaryExpr (.BinaryExpr (.Name "a") .Add (.Name "b")) .Add (.Name "c"),
        .Name "d"] ∧
    normalize (.Tuple [.BinaryExpr (.Name "a") .Add (.BinaryExpr (.Name "b") .Add (.Name "c")),
        .Name "d"]) =
      .Tuple [.BinaryExpr (.Name "a") .Add (.BinaryExpr (.Name "b") .Add (.Name "c")),
        .Name "d"] ∧
    (.Tuple [.BinaryExpr (.BinaryExpr (.Name "a") .Add (.Name "b")) .Add (.Name "c"),
        .Name "d"] : Expr) ≠
      .Tuple [.BinaryExpr (.Name "a") .Add (.BinaryExpr (.Name "b") .Add (.Name "c")),
        .Name "d"] ∧
    rightNested
      (normalize (.Tuple [.BinaryExpr (.BinaryExpr (.Name "a") .Add (.Name "b")) .Add (.Name "c"),
        .Name "d"])) = false := by
  refine ⟨rfl, rfl, rfl, rfl, ?_, rfl⟩
  intro h
  exact Expr.noConfusion (Expr.BinaryExpr.inj (List.cons.inj (Expr.Tuple.inj h)).1).1

/-- Rotating a same-operator left child with apply_associative neither
adds nor removes operator occurrences: if neither side contains `o`
and the chain operator is not `o`, the rebuilt node does not contain
`o`. -/
theorem apply_associative_containsOp (o : Op) :
    ∀ (n : ℕ) (op : Op) (lhs rhs : Expr), exprSize lhs ≤ n →
      containsOp o lhs = false → containsOp o rhs = false → (op == o) = false →
      containsOp o (.BinaryExpr (apply_associative op lhs rhs).1 op
        (apply_associative op lhs rhs).2) = false := by
  intro n
  induction n with
  | zero =>
    intro op lhs rhs h
    have := exprSize_pos lhs
    omega
  | succ n ih =>
    intro op lhs rhs h hl hr hop
    cases lhs
    case BinaryExpr a iop b =>
      by_cases hiop : iop = op
      · subst hiop
        simp only [containsOp, Bool.or_eq_false_iff] at hl
        have hb : exprSize b ≤ n := by
          have := exprSize_pos a
          simp only [exprSize] at h
          omega
        have hrec := ih iop b rhs hb hl.2 hr hl.1.1
        simp only [apply_associative, if_pos rfl]
        simp only [containsOp, Bool.or_eq_false_iff] at hrec ⊢
        exact ⟨⟨hl.1.1, hl.1.2⟩, hrec⟩
      · simp only [containsOp, Bool.or_eq_false_iff] at hl
        simp [apply_associative, hiop, containsOp, hl.1.1, hl.1.2, hl.2, hr, hop]
    case Tuple es =>
      simp only [containsOp] at hl
      simp [apply_associative, containsOp, hl, hr, hop]
    case Assign x y =>
      simp only [containsOp, Bool.or_eq_false_iff] at hl
      simp [apply_associative, containsOp, hl.1, hl.2, hr, hop]
    all_goals simp [apply_associative, containsOp, hr, hop]


/-- Step lemma: normalize on an Add node re-associates the normalized
children with apply_associative. -/
theorem normalize_add (l r : Expr) : normalize (.BinaryExpr l .Add r) =
    .BinaryExpr (apply_associative .Add (normalize l) (normalize r)).1 .Add
      (apply_associative .Add (normalize l) (normalize r)).2 := rfl

/-- Step lemma: normalize rewrites `l − r` to the re-associated
`l + (−1 ∙ r)`. -/
theorem normalize_sub (l r : Expr) : normalize (.BinaryExpr l .Subtract r) =
    .BinaryExpr
      (apply_associative .Add (normalize l)
        (.BinaryExpr (.Number (-1)) .Multiply (normalize r))).1 .Add
      (apply_associative .Add (normalize l)
        (.BinaryExpr (.Number (-1)) .Multiply (normalize r))).2 := rfl

/-- Step lemma: normalize rewrites `l ÷ r` to the re-associated
`l ∙ (r ^ −1)`. -/
theorem normalize_div (l r : Expr) : normalize (.BinaryExpr l .Divide r) =
    .BinaryExpr
      (apply_associative .Multiply (normalize l)
        (.BinaryExpr (normalize r) .Exponent (.Number (-1)))).1 .Multiply
      (apply_associative .Multiply (normalize l)
        (.BinaryExpr (normalize r) .Exponent (.Number (-1)))).2 := rfl

/-- Step lemma: normalize rewrites an Adjacent node to the
re-associated Multiply of its normalized children. -/
theorem normalize_adj (l r : Expr) : normalize (.BinaryExpr l .Adjacent r) =
    .BinaryExpr (apply_associative .Multiply (normalize l) (normalize r)).1 .Multiply
      (apply_associative .Multiply (normalize l) (normalize r)).2 := rfl

/-- Step lemma: normalize on a Multiply node re-associates the
normalized children. -/
theorem normalize_mul (l r : Expr) : normalize (.BinaryExpr l .Multiply r) =
    .BinaryExpr (apply_associative .Multiply (normalize l) (normalize r)).1 .Multiply
      (apply_associative .Multiply (normalize l) (normalize r)).2 := rfl

/-- Step lemma: normalize on an Exponent node just normalizes the
children. -/
theorem normalize_exp (l r : Expr) : normalize (.BinaryExpr l .Exponent r) =
    .BinaryExpr (normalize l) .Exponent (normalize r) := rfl

/-- Step lemma: normalize on a Modulus node just normalizes the
children. -/
theorem normalize_mod (l r : Expr) : normalize (.BinaryExpr l .Modulus r) =
    .BinaryExpr (normalize l) .Modulus (normalize r) := rfl

/-- Step lemma: normalize on an Equals node just normalizes the
children. -/
theorem normalize_eqop (l r : Expr) : normalize (.BinaryExpr l .Equals r) =
    .BinaryExpr (normalize l) .Equals (normalize r) := rfl

/-- Rotating a same-operator left child with apply_associative
preserves right-nestedness of the rebuilt node. -/
theorem apply_associative_rightNested :
    ∀ (n : ℕ) (op : Op) (lhs rhs : Expr), exprSize lhs ≤ n →
      rightNested lhs = true → rightNested rhs = true →
      rightNested (.BinaryExpr (apply_associative op lhs rhs).1 op
        (apply_associative op lhs rhs).2) = true := by
  intro n
  induction n with
  | zero =>
    intro op lhs rhs h
    have := exprSize_pos lhs
    omega
  | succ n ih =>
    intro op lhs rhs h hl hr
    cases lhs
    case BinaryExpr a iop b =>
      by_cases hiop : iop = op
      · subst hiop
        simp only [rightNested, Bool.and_eq_true] at hl
        have hb : exprSize b ≤ n := by
          have := exprSize_pos a
          simp only [exprSize] at h
          omega
        have hrec := ih iop b rhs hb hl.2 hr
        simp only [apply_associative, if_pos rfl]
        simp only [rightNested, Bool.and_eq_true] at hrec ⊢
        exact ⟨hl.1, hrec⟩
      · have hAA : apply_associative op (.BinaryExpr a iop b) rhs =
            (.BinaryExpr a iop b, rhs) := by
          simp [apply_associative, hiop]
        have hroot : isOpRoot op (.BinaryExpr a iop b) = false := by
          simp [isOpRoot, hiop]
        simp only [rightNested, Bool.and_eq_true] at hl
        rw [hAA]
        simp only [rightNested, Bool.and_eq_true]
        exact ⟨⟨by simp [hroot], hl⟩, hr⟩
    case Tuple es =>
      simp only [rightNested] at hl
      simp [apply_associative, rightNested, isOpRoot, hl, hr]
    case Assign x y =>
      simp only [rightNested, Bool.and_eq_true] at hl
      simp [apply_associative, rightNested, isOpRoot, hl.1, hl.2, hr]
    all_goals simp [apply_associative, rightNested, isOpRoot, hr]


/-- For Tuple- and Assign-free expressions, normalize eliminates every
Subtract, Divide and Adjacent node. -/
theorem normalize_taFree_containsOp :
    ∀ (n : ℕ) (e : Expr), exprSize e ≤ n → taFree e = true →
      containsOp .Subtract (normalize e) = false ∧
      containsOp .Divide (normalize e) = false ∧
      containsOp .Adjacent (normalize e) = false := by
  intro n
  induction n with
  | zero =>
    intro e h
    have := exprSize_pos e
    omega
  | succ n ih =>
    intro e h ht
    cases e
    case Tuple es => simp [taFree] at ht
    case Assign a b => simp [taFree] at ht
    case BinaryExpr l op r =>
      simp only [taFree, Bool.and_eq_true] at ht
      have hsl : exprSize l ≤ n := by
        have := exprSize_pos r
        simp only [exprSize] at h
        omega
      have hsr : exprSize r ≤ n := by
        have := exprSize_pos l
        simp only [exprSize] at h
        omega
      have hL := ih l hsl ht.1
      have hR := ih r hsr ht.2
      cases op
      case Add =>
        rw [normalize_add]
        exact ⟨apply_associative_containsOp .Subtract (exprSize (normalize l)) .Add
            (normalize l) (normalize r) le_rfl hL.1 hR.1 rfl,
          apply_associative_containsOp .Divide (exprSize (normalize l)) .Add
            (normalize l) (normalize r) le_rfl hL.2.1 hR.2.1 rfl,
          apply_associative_containsOp .Adjacent (exprSize (normalize l)) .Add
            (normalize l) (normalize r) le_rfl hL.2.2 hR.2.2 rfl⟩
      case Subtract =>
        rw [normalize_sub]
        have hS : containsOp .Subtract
            (.BinaryExpr (.Number (-1)) .Multiply (normalize r)) = false := by
          simp [containsOp, hR.1]
        have hD : containsOp .Divide
            (.BinaryExpr (.Number (-1)) .Multiply (normalize r)) = false := by
          simp [containsOp, hR.2.1]
        have hA : containsOp .Adjacent
            (.BinaryExpr (.Number (-1)) .Multiply (normalize r)) = false := by
          simp [containsOp, hR.2.2]
        exact ⟨apply_associative_containsOp .Subtract (exprSize (normalize l)) .Add
            (normalize l) (.BinaryExpr (.Number (-1)) .Multiply (normalize r)) le_rfl hL.1 hS rfl,
          apply_associative_containsOp .Divide (exprSize (normalize l)) .Add
            (normalize l) (.BinaryExpr (.Number (-1)) .Multiply (normalize r)) le_rfl hL.2.1 hD rfl,
          apply_associative_containsOp .Adjacent (exprSize (normalize l)) .Add
            (normalize l) (.BinaryExpr (.Number (-1)) .Multiply (normalize r)) le_rfl hL.2.2 hA rfl⟩
      case Divide =>
        rw [normalize_div]
        have hS : containsOp .Subtract
            (.BinaryExpr (normalize r) .Exponent (.Number (-1))) = false := by
          simp [containsOp, hR.1]
        have hD : containsOp .Divide
            (.BinaryExpr (normalize r) .Exponent (.Number (-1))) = false := by
          simp [containsOp, hR.2.1]
        have hA : containsOp .Adjacent
            (.BinaryExpr (normalize r) .Exponent (.Number (-1))) = false := by
          simp [containsOp, hR.2.2]
        exact ⟨apply_associative_containsOp .Subtract (exprSize (normalize l)) .Multiply
            (normalize l) (.BinaryExpr (normalize r) .Exponent (.Number (-1))) le_rfl hL.1 hS rfl,
          apply_associative_containsOp .Divide (exprSize (normalize l)) .Multiply
            (normalize l) (.BinaryExpr (normalize r) .Exponent (.Number (-1))) le_rfl hL.2.1 hD rfl,
          apply_associative_containsOp .Adjacent (exprSize (normalize l)) .Multiply
            (normalize l) (.BinaryExpr (normalize r) .Exponent (.Number (-1))) le_rfl hL.2.2 hA rfl⟩
      case Multiply =>
        rw [normalize_mul]
        exact ⟨apply_associative_containsOp .Subtract (exprSize (normalize l)) .Multiply
            (normalize l) (normalize r) le_rfl hL.1 hR.1 rfl,
          apply_associative_containsOp .Divide (exprSize (normalize l)) .Multiply
            (normalize l) (normalize r) le_rfl hL.2.1 hR.2.1 rfl,
          apply_associative_containsOp .Adjacent (exprSize (normalize l)) .Multiply
            (normalize l) (normalize r) le_rfl hL.2.2 hR.2.2 rfl⟩
      case Adjacent =>
        rw [normalize_adj]
        exact ⟨apply_associative_containsOp .Subtract (exprSize (normalize l)) .Multiply
            (normalize l) (normalize r) le_rfl hL.1 hR.1 rfl,
          apply_associative_containsOp .Divide (exprSize (normalize l)) .Multiply
            (normalize l) (normalize r) le_rfl hL.2.1 hR.2.1 rfl,
          apply_associative_containsOp .Adjacent (exprSize (normalize l)) .Multiply
            (normalize l) (normalize r) le_rfl hL.2.2 hR.2.2 rfl⟩
      case Exponent =>
        rw [normalize_exp]
        refine ⟨?_, ?_, ?_⟩ <;>
          simp [containsOp, hL.1, hL.2.1, hL.2.2, hR.1, hR.2.1, hR.2.2]
      case Modulus =>
        rw [normalize_mod]
        refine ⟨?_, ?_, ?_⟩ <;>
          simp [containsOp, hL.1, hL.2.1, hL.2.2, hR.1, hR.2.1, hR.2.2]
      case Equals =>
        rw [normalize_eqop]
        refine ⟨?_, ?_, ?_⟩ <;>
          simp [containsOp, hL.1, hL.2.1, hL.2.2, hR.1, hR.2.1, hR.2.2]
    all_goals exact ⟨rfl, rfl, rfl⟩

/-- For Tuple- and Assign-free expressions, normalize produces a
right-nested tree: no Add node with an Add left child, no Multiply
node with a Multiply left child. -/
theorem normalize_taFree_rightNested :
    ∀ (n : ℕ) (e : Expr), exprSize e ≤ n → taFree e = true →
      rightNested (normalize e) = true := by
  intro n
  induction n with
  | zero =>
    intro e h
    have := exprSize_pos e
    omega
  | succ n ih =>
    intro e h ht
    cases e
    case Tuple es => simp [taFree] at ht
    case Assign a b => simp [taFree] at ht
    case BinaryExpr l op r =>
      simp only [taFree, Bool.and_eq_true] at ht
      have hsl : exprSize l ≤ n := by
        have := exprSize_pos r
        simp only [exprSize] at h
        omega
      have hsr : exprSize r ≤ n := by
        have := exprSize_pos l
        simp only [exprSize] at h
        omega
      have hL := ih l hsl ht.1
      have hR := ih r hsr ht.2
      cases op
      case Add =>
        rw [normalize_add]
        exact apply_associative_rightNested (exprSize (normalize l)) .Add
          (normalize l) (normalize r) le_rfl hL hR
      case Subtract =>
        rw [normalize_sub]
        have hrn : rightNested
            (.BinaryExpr (.Number (-1)) .Multiply (normalize r)) = true := by
          simp [rightNested, isOpRoot, hR]
        exact apply_associative_rightNested (exprSize (normalize l)) .Add
          (normalize l) (.BinaryExpr (.Number (-1)) .Multiply (normalize r)) le_rfl hL hrn
      case Divide =>
        rw [normalize_div]
        have hrn : rightNested
            (.BinaryExpr (normalize r) .Exponent (.Number (-1))) = true := by
          simp [rightNested, isOpRoot, hR]
        exact apply_associative_rightNested (exprSize (normalize l)) .Multiply
          (normalize l) (.BinaryExpr (normalize r) .Exponent (.Number (-1))) le_rfl hL hrn
      case Multiply =>
        rw [normalize_mul]
        exact apply_associative_rightNested (exprSize (normalize l)) .Multiply
          (normalize l) (normalize r) le_rfl hL hR
      case Adjacent =>
        rw [normalize_adj]
        exact apply_associative_rightNested (exprSize (normalize l)) .Multiply
          (normalize l) (normalize r) le_rfl hL hR
      case Exponent =>
        rw [normalize_exp]
        simp [rightNested, isOpRoot, hL, hR]
      case Modulus =>
        rw [normalize_mod]
        simp [rightNested, isOpRoot, hL, hR]
      case Equals =>
        rw [normalize_eqop]
        simp [rightNested, isOpRoot, hL, hR]
    all_goals rfl

/-- C3 amended: for Tuple- and Assign-free expressions normalize
eliminates every Subtract, Divide and Adjacent (normalize does not
recurse into Tuple or Assign children, so the original claim fails
there), and it performs exactly the claimed rewrites: `l − r` becomes
`l + (−1 ∙ r)`, `l ÷ r` becomes `l ∙ (r ^ −1)`, and adjacency becomes
multiplication. -/
theorem c3_amended :
    (∀ e : Expr, taFree e = true →
      containsOp .Subtract (normalize e) = false ∧
      containsOp .Divide (normalize e) = false ∧
      containsOp .Adjacent (normalize e) = false) ∧
    (∀ l r : Expr, normalize (.BinaryExpr l .Subtract r) =
      normalize (.BinaryExpr l .Add (.BinaryExpr (.Number (-1)) .Multiply r))) ∧
    (∀ l r : Expr, normalize (.BinaryExpr l .Divide r) =
      normalize (.BinaryExpr l .Multiply (.BinaryExpr r .Exponent (.Number (-1))))) ∧
    (∀ l r : Expr, normalize (.BinaryExpr l .Adjacent r) =
      normalize (.BinaryExpr l .Multiply r)) :=
  ⟨fun e ht => normalize_taFree_containsOp (exprSize e) e le_rfl ht,
   fun _ _ => rfl, fun _ _ => rfl, fun _ _ => rfl⟩

/-- C4 amended: for Tuple- and Assign-free expressions normalize
produces a right-nested operator chain (no Add node with an Add left
child, no Multiply node with a Multiply left child), and in
particular `(a+b)+c` and `a+(b+c)` both normalize to the same
right-nested tree `a+(b+c)`. -/
theorem c4_amended :
    (∀ e : Expr, taFree e = true → rightNested (normalize e) = true) ∧
    normalize (.BinaryExpr (.BinaryExpr (.Name "a") .Add (.Name "b")) .Add (.Name "c")) =
      .BinaryExpr (.Name "a") .Add (.BinaryExpr (.Name "b") .Add (.Name "c")) ∧
    normalize (.BinaryExpr (.Name "a") .Add (.BinaryExpr (.Name "b") .Add (.Name "c"))) =
      .BinaryExpr (.Name "a") .Add (.BinaryExpr (.Name "b") .Add (.Name "c")) :=
  ⟨fun e ht => normalize_taFree_rightNested (exprSize e) e le_rfl ht, rfl, rfl⟩

end Ca
